import Mathlib

/-!
Verification of the synchronization and conversion layer of MPlib's
`sapien_utils/conversion.py` (`SapienPlanningWorld`): identity naming,
collision-geometry conversion, simulation synchronization and pairwise
collision/distance query dispatch.  Rotations are embedded as 3x3 rational
matrices (the faithful image of the unit quaternions used by the source:
the fixed fixup quaternion `euler2quat(0, pi/2, 0)` is a 90-degree rotation
about y, whose matrix has integer entries), poses as rotation + translation
pairs, and the external FCL/planning-world backend as explicit function
parameters.
-/

namespace MPlib

/-- A 3-vector of rationals, embedding the numeric 3-vectors of the source. -/
structure Vec3 where
  x : ℚ
  y : ℚ
  z : ℚ
deriving DecidableEq, Repr

/-- Componentwise addition. -/
def Vec3.add (a b : Vec3) : Vec3 := ⟨a.x + b.x, a.y + b.y, a.z + b.z⟩

/-- Scalar multiplication. -/
def Vec3.smul (c : ℚ) (a : Vec3) : Vec3 := ⟨c * a.x, c * a.y, c * a.z⟩

/-- Componentwise (Hadamard) product, embedding numpy elementwise `*`. -/
def Vec3.hadamard (a b : Vec3) : Vec3 := ⟨a.x * b.x, a.y * b.y, a.z * b.z⟩

/-- Dot product, embedding `n.dot(p)`. -/
def Vec3.dot (a b : Vec3) : ℚ := a.x * b.x + a.y * b.y + a.z * b.z

/-- Componentwise negation. -/
def Vec3.neg (a : Vec3) : Vec3 := ⟨-a.x, -a.y, -a.z⟩

/-- The zero vector. -/
def Vec3.zero : Vec3 := ⟨0, 0, 0⟩

/-- The x-axis unit vector. -/
def Vec3.ex : Vec3 := ⟨1, 0, 0⟩

/-- The y-axis unit vector. -/
def Vec3.ey : Vec3 := ⟨0, 1, 0⟩

/-- The z-axis unit vector. -/
def Vec3.ez : Vec3 := ⟨0, 0, 1⟩

/-- A 3x3 matrix stored by columns (`cx` is the image of the x-axis, etc.),
embedding the rotation part of a pose. -/
structure Mat3 where
  cx : Vec3
  cy : Vec3
  cz : Vec3
deriving DecidableEq, Repr

/-- Matrix-vector application. -/
def Mat3.app (M : Mat3) (v : Vec3) : Vec3 :=
  Vec3.add (Vec3.smul v.x M.cx) (Vec3.add (Vec3.smul v.y M.cy) (Vec3.smul v.z M.cz))

/-- Matrix product: columns of `M.mul N` are `M` applied to columns of `N`. -/
def Mat3.mul (M N : Mat3) : Mat3 := ⟨M.app N.cx, M.app N.cy, M.app N.cz⟩

/-- The identity matrix. -/
def Mat3.id : Mat3 := ⟨Vec3.ex, Vec3.ey, Vec3.ez⟩

/-- Transpose: the inverse of a rotation matrix (the embedding of quaternion
conjugation on unit quaternions). -/
def Mat3.transpose (M : Mat3) : Mat3 :=
  ⟨⟨M.cx.x, M.cy.x, M.cz.x⟩, ⟨M.cx.y, M.cy.y, M.cz.y⟩, ⟨M.cx.z, M.cy.z, M.cz.z⟩⟩

/-- A rigid pose: rotation `R` plus translation `p`, embedding `sapien.Pose`
(position + unit quaternion) through the quaternion-to-matrix homomorphism. -/
structure Pose3 where
  R : Mat3
  p : Vec3
deriving DecidableEq, Repr

/-- Pose composition, embedding sapien `Pose.__mul__`:
`(R1,p1) * (R2,p2) = (R1 R2, R1 p2 + p1)`. -/
def Pose3.mul (a b : Pose3) : Pose3 := ⟨a.R.mul b.R, Vec3.add (a.R.app b.p) a.p⟩

/-- The identity pose, embedding `Pose()`. -/
def Pose3.id : Pose3 := ⟨Mat3.id, Vec3.zero⟩

/-- Pose inverse, embedding `Pose.inv()` for a pose with a rotation part:
`(R,p)⁻¹ = (Rᵀ, -(Rᵀ p))`. -/
def Pose3.inv (a : Pose3) : Pose3 :=
  ⟨a.R.transpose, Vec3.neg (a.R.transpose.app a.p)⟩

/-- The matrix of `euler2quat(0, pi/2, 0)`: rotation by +90 degrees about the
y-axis.  It sends the z-axis to the x-axis and the x-axis to minus the z-axis. -/
def rotY90 : Mat3 := ⟨⟨0, 0, -1⟩, ⟨0, 1, 0⟩, ⟨1, 0, 0⟩⟩

/-- The pure-rotation pose `Pose(q=euler2quat(0, np.pi / 2, 0))` used as the
capsule/cylinder height-axis fixup on `conversion.py` lines 325 and 333. -/
def rotY90Pose : Pose3 := ⟨rotY90, Vec3.zero⟩

/-! ## Decimal representation and unique names -/

/-- The decimal digit character for a digit value (values above 9 do not occur
on digit lists produced by `Nat.digits 10`). -/
def digitChar : Nat → Char
  | 0 => '0'
  | 1 => '1'
  | 2 => '2'
  | 3 => '3'
  | 4 => '4'
  | 5 => '5'
  | 6 => '6'
  | 7 => '7'
  | 8 => '8'
  | 9 => '9'
  | _ => '*'

/-- Fuel-driven digit extraction (structural in the fuel so that concrete
names evaluate by kernel reduction): with enough fuel this is the usual
most-significant-first decimal expansion. -/
def decReprAux : Nat → Nat → List Char
  | 0, _ => []
  | fuel + 1, n =>
      if n < 10 then [digitChar n]
      else decReprAux fuel (n / 10) ++ [digitChar (n % 10)]

/-- The decimal digit characters of `n`, most significant first. -/
def digitsOf (n : Nat) : List Char := decReprAux (n + 1) n

/-- Decimal representation of a natural number, embedding Python's
f-string formatting of the nonnegative integer `per_scene_id`. -/
def decRepr (n : Nat) : String := String.mk (digitsOf n)

/-- The unique-name formula shared by both branches of `convert_object_name`
(`conversion.py` lines 62-65): declared name, underscore, per-scene id. -/
def entityUniqueName (name : String) (id : Nat) : String :=
  name ++ "_" ++ decRepr id

/-! ## Simulation-side data model -/

/-- The shape-specific data of one SAPIEN physx collision shape
(the closed set of shape classes dispatched on in
`SapienPlanningWorld.convert_physx_component`). -/
inductive PhysxShapeKind
  | box (half_size : Vec3)
  | capsule (radius : ℚ) (half_length : ℚ)
  | convexMesh (vertices : List Vec3) (scale : Vec3) (triangles : List (Nat × Nat × Nat))
  | cylinder (radius : ℚ) (half_length : ℚ)
  | plane
  | sphere (radius : ℚ)
  | triangleMesh (vertices : List Vec3) (triangles : List (Nat × Nat × Nat))
deriving DecidableEq, Repr

/-- One SAPIEN physx collision shape: shape data plus its local pose. -/
structure PhysxCollisionShape where
  kind : PhysxShapeKind
  local_pose : Pose3
deriving DecidableEq, Repr

/-- A SAPIEN `PhysxRigidBaseComponent` as consumed by
`convert_physx_component`: whether it is an articulation link component (and
then its component name), its owning entity's declared name / per-scene id /
current world pose, and its ordered collision-shape list. -/
structure PhysxComponent where
  is_link : Bool
  link_name : String
  entity_name : String
  entity_id : Nat
  entity_pose : Pose3
  collision_shapes : List PhysxCollisionShape
deriving DecidableEq, Repr

/-- A live articulation as enumerated by `scene.get_all_articulations()`:
declared name, root link entity's per-scene id, root pose, joint positions. -/
structure SimArticulation where
  name : String
  root_id : Nat
  root_pose : Pose3
  qpos : List ℚ
deriving DecidableEq, Repr

/-- A live standalone actor entity as enumerated by
`scene.get_all_actors()`, with the collision shapes of its rigid component. -/
structure SimEntity where
  name : String
  per_scene_id : Nat
  pose : Pose3
  collision_shapes : List PhysxCollisionShape
deriving DecidableEq, Repr

/-- The rigid component of a standalone actor entity (not an articulation
link), as found by `entity.find_component_by_type(PhysxRigidBaseComponent)`. -/
def entityComponent (e : SimEntity) : PhysxComponent :=
  ⟨false, "", e.name, e.per_scene_id, e.pose, e.collision_shapes⟩

/-- A SAPIEN object reference accepted by the conversion layer: either a
`PhysxArticulation` or an `Entity`. -/
inductive SimObj
  | art (a : SimArticulation)
  | ent (e : SimEntity)
deriving DecidableEq, Repr

/-- `convert_object_name` (`conversion.py` lines 54-67): an articulation's
unique name comes from its declared name and its root link entity's per-scene
id; an entity's from its own declared name and per-scene id. -/
def convert_object_name : SimObj → String
  | .art a => entityUniqueName a.name a.root_id
  | .ent e => entityUniqueName e.name e.per_scene_id

/-- A live scene snapshot: the articulation and actor enumerations consumed
by construction and synchronization. -/
structure SimScene where
  articulations : List SimArticulation
  actors : List SimEntity
deriving DecidableEq, Repr

/-! ## Planning-side geometry -/

/-- An FCL collision geometry as constructed by `convert_physx_component`. -/
inductive CGeom
  | Box (side : Vec3)
  | Capsule (radius : ℚ) (lz : ℚ)
  | Convex (vertices : List Vec3) (faces : List (Nat × Nat × Nat))
  | Cylinder (radius : ℚ) (lz : ℚ)
  | Halfspace (n : Vec3) (d : ℚ)
  | Sphere (radius : ℚ)
  | BVHModel (vertices : List Vec3) (faces : List (Nat × Nat × Nat))
deriving DecidableEq, Repr

/-- An FCL `CollisionObject` wrapping one collision geometry
(`CollisionObject(c_geom)` on `conversion.py` line 351). -/
structure CollisionObject where
  geometry : CGeom
deriving DecidableEq, Repr

/-- An FCL object: named bundle of a world pose with ordered lists of
collision objects and their local poses (`FCLObject(name, pose, shapes,
shape_poses)`). -/
structure FCLObject where
  name : String
  pose : Pose3
  shapes : List CollisionObject
  shape_poses : List Pose3
deriving DecidableEq, Repr

/-- The per-shape conversion step of `convert_physx_component`
(`conversion.py` lines 316-351): the geometry built for the shape and the
final stored local pose (the appended `Pose(shape.local_pose)` after the
capsule/cylinder fixup `shape_poses[-1] *= Pose(q=euler2quat(0, np.pi/2, 0))`
or the plane reset `shape_poses[-1] = Pose()`). -/
def convertShape (shape : PhysxCollisionShape) : CGeom × Pose3 :=
  match shape.kind with
  | .box hs => (.Box (Vec3.smul 2 hs), shape.local_pose)
  | .capsule r hl => (.Capsule r (2 * hl), Pose3.mul shape.local_pose rotY90Pose)
  | .convexMesh vs sc tris => (.Convex (vs.map (fun v => Vec3.hadamard v sc)) tris, shape.local_pose)
  | .cylinder r hl => (.Cylinder r (2 * hl), Pose3.mul shape.local_pose rotY90Pose)
  | .plane =>
      let n := shape.local_pose.R.cx
      (.Halfspace n (Vec3.dot n shape.local_pose.p), Pose3.id)
  | .sphere r => (.Sphere r, shape.local_pose)
  | .triangleMesh vs tris => (.BVHModel vs tris, shape.local_pose)

/-- `SapienPlanningWorld.convert_physx_component` (`conversion.py` lines
302-363): loop over the component's collision shapes accumulating the
collision-object and local-pose lists; `None` when no shapes; otherwise an
`FCLObject` named by the link name (articulation link component) or the
entity's unique name, at the entity's current world pose. -/
def convert_physx_component (comp : PhysxComponent) : Option FCLObject :=
  let lists := comp.collision_shapes.foldl
    (fun (acc : List CollisionObject × List Pose3) shape =>
      let conv := convertShape shape
      (acc.1 ++ [⟨conv.1⟩], acc.2 ++ [conv.2]))
    ([], [])
  if lists.1.length = 0 then none
  else some
    ⟨(if comp.is_link then comp.link_name
      else entityUniqueName comp.entity_name comp.entity_id),
     comp.entity_pose, lists.1, lists.2⟩

/-! ## Planning-world state and backend interface -/

/-- Modelled from the spec: the planning-world backend's lookup-by-name
(`get_articulation` / `get_object` / `get_attached_object` return the entry
registered under a name, or nothing), embedded as association-list lookup. -/
def assocFind {α : Type} : List (String × α) → String → Option α
  | [], _ => none
  | p :: t, k => if p.1 == k then some p.2 else assocFind t k

/-- Modelled from the spec: the planning-world backend's entry registration
keyed by name — overwrite the existing binding if the name is registered,
otherwise append a new binding. -/
def assocSet {α : Type} : List (String × α) → String → α → List (String × α)
  | [], k, v => [(k, v)]
  | p :: t, k, v => if p.1 == k then (k, v) :: t else p :: assocSet t k v

/-- The name set (membership) of a name-keyed registry. -/
def keys {α : Type} (l : List (String × α)) : List String := l.map (fun p => p.1)

/-- A handle to an articulation's kinematic collision model
(`ArticulatedModel.get_fcl_model()`), consumed as a black box. -/
structure FCLModel where
  tag : Nat
deriving DecidableEq, Repr

/-- The planning-side state of one registered articulated model that
synchronization refreshes: base pose and full joint configuration, plus its
collision-model handle. -/
structure ArtModel where
  base_pose : Pose3
  qpos : List ℚ
  fcl : FCLModel
deriving DecidableEq, Repr

/-- The planning-side state of one attached object touched by
synchronization: its attached (relative) pose and the current global pose of
its attachment link (`get_attached_link_global_pose()`). -/
structure AttachedBody where
  pose : Pose3
  link_global_pose : Pose3
deriving DecidableEq, Repr

/-- The planning-world aggregate: name-keyed registries of articulated
models, standalone objects and attached objects. -/
structure PlanningWorld where
  articulations : List (String × ArtModel)
  objects : List (String × FCLObject)
  attached : List (String × AttachedBody)
deriving DecidableEq, Repr

/-- The `mplib.collision_detection.AllowedCollision` enumeration. -/
inductive AllowedCollision
  | NEVER
  | ALWAYS
  | CONDITIONAL
deriving DecidableEq, Repr

/-- An allowed-collision matrix: `get_allowed_collision` on a pair of names,
returning nothing when the pair has no entry. -/
def ACM : Type := String → String → Option AllowedCollision

/-- An FCL narrow-phase collision result, exposing `is_collision()`. -/
structure CollisionResult where
  is_collision : Bool
deriving DecidableEq, Repr

/-- An FCL narrow-phase distance result, exposing `min_distance`. -/
structure DistanceResult where
  min_distance : ℚ
deriving DecidableEq, Repr

/-- `mplib.collision_detection.WorldCollisionResult` with its positional
constructor `(res, collision_type, object_name1, object_name2, link_name1,
link_name2)`. -/
structure WorldCollisionResult where
  res : CollisionResult
  collision_type : String
  object_name1 : String
  object_name2 : String
  link_name1 : String
  link_name2 : String
deriving DecidableEq, Repr

/-- `mplib.collision_detection.WorldDistanceResult` with its positional
constructor; `res` and `min_distance` are optional so the default-constructed
record can be represented without choosing a numeric sentinel. -/
structure WorldDistanceResult where
  res : Option DistanceResult
  min_distance : Option ℚ
  distance_type : String
  object_name1 : String
  object_name2 : String
  link_name1 : String
  link_name2 : String
deriving DecidableEq, Repr

/-- Modelled from the spec: the default-constructed `WorldDistanceResult()`
(the backend record type is external to this repository) — no narrow-phase
result, sentinel minimum distance, empty tags. -/
def WorldDistanceResult.default : WorldDistanceResult :=
  ⟨none, none, "", "", "", "", ""⟩

/-- The external collision backend consumed as a black box: the free
functions `collide` / `distance` on pairs of FCL objects, and the
articulation-model methods `check_collision_with` / `distance_with`. -/
structure Backend where
  collideFn : FCLObject → FCLObject → CollisionResult
  distanceFn : FCLObject → FCLObject → DistanceResult
  modelCheck : FCLModel → Sum FCLModel FCLObject → ACM → List WorldCollisionResult
  modelDist : FCLModel → Sum FCLModel FCLObject → ACM → WorldDistanceResult

/-- The not-found error raised by `_get_collision_obj`
(`conversion.py` lines 296-300). -/
def notFoundMsg (name : String) : String :=
  "Object " ++ name ++ " not found in PlanningWorld " ++
  "(The scene might have changed since last update)"

/-- `SapienPlanningWorld._get_collision_obj` (`conversion.py` lines 282-300):
resolve an articulation to its registered model's FCL model, an entity to its
registered FCL object, and fail with the not-found error otherwise. -/
def _get_collision_obj (pw : PlanningWorld) (obj : SimObj) :
    Except String (Sum FCLModel FCLObject) :=
  match obj with
  | .art a =>
      match assocFind pw.articulations (convert_object_name obj) with
      | some m => .ok (.inl m.fcl)
      | none => .error (notFoundMsg a.name)
  | .ent e =>
      match assocFind pw.objects (convert_object_name obj) with
      | some f => .ok (.inr f)
      | none => .error (notFoundMsg e.name)

/-- `SapienPlanningWorld.check_collision_between` (`conversion.py` lines
184-230): resolve both references, dispatch on which side is an
articulation; on the object-object path gate the direct pairwise query on the
ACM entry being unset or `NEVER`, wrapping a positive narrow-phase result in
one record tagged "object_object" with both entry names. -/
def check_collision_between (bk : Backend) (pw : PlanningWorld)
    (obj_A obj_B : SimObj) (acm : ACM) :
    Except String (List WorldCollisionResult) := do
  let col_obj_A ← _get_collision_obj pw obj_A
  let col_obj_B ← _get_collision_obj pw obj_B
  match obj_A, obj_B with
  | .art _, _ =>
      match col_obj_A with
      | .inl m => .ok (bk.modelCheck m col_obj_B acm)
      | .inr _ => .error "Wrong type"
  | .ent _, .art _ =>
      match col_obj_B with
      | .inl m => .ok (bk.modelCheck m col_obj_A acm)
      | .inr _ => .error "Wrong type"
  | .ent _, .ent _ =>
      match col_obj_A, col_obj_B with
      | .inr a, .inr b =>
          if acm a.name b.name = none ∨
              acm a.name b.name = some AllowedCollision.NEVER then
            let result := bk.collideFn a b
            if result.is_collision then
              .ok [⟨result, "object_object", a.name, b.name, a.name, b.name⟩]
            else .ok []
          else .ok []
      | _, _ => .error "Wrong type"

/-- `SapienPlanningWorld.distance_between` (`conversion.py` lines 232-280):
same dispatch as the collision query, starting from the default-constructed
distance record; the object-object path runs the pairwise distance primitive
under the same ACM gate; finally return only the minimum distance when
`return_distance_only` is set. -/
def distance_between (bk : Backend) (pw : PlanningWorld)
    (obj_A obj_B : SimObj) (acm : ACM) (return_distance_only : Bool) :
    Except String (Sum (Option ℚ) WorldDistanceResult) := do
  let col_obj_A ← _get_collision_obj pw obj_A
  let col_obj_B ← _get_collision_obj pw obj_B
  let ret : WorldDistanceResult ←
    match obj_A, obj_B with
    | .art _, _ =>
        match col_obj_A with
        | .inl m => pure (bk.modelDist m col_obj_B acm)
        | .inr _ => Except.error "Wrong type"
    | .ent _, .art _ =>
        match col_obj_B with
        | .inl m => pure (bk.modelDist m col_obj_A acm)
        | .inr _ => Except.error "Wrong type"
    | .ent _, .ent _ =>
        match col_obj_A, col_obj_B with
        | .inr a, .inr b =>
            if acm a.name b.name = none ∨
                acm a.name b.name = some AllowedCollision.NEVER then
              let result := bk.distanceFn a b
              pure ⟨some result, some result.min_distance, "object_object",
                    a.name, b.name, a.name, b.name⟩
            else pure WorldDistanceResult.default
        | _, _ => Except.error "Wrong type"
  if return_distance_only then .ok (.inl ret.min_distance) else .ok (.inr ret)

/-! ## add_object and synchronization -/

/-- Modelled from the spec: the base `PlanningWorld.add_object(FCLObject)`
(backend entry registration) — register the object under its own name. -/
def add_object_fcl (pw : PlanningWorld) (obj : FCLObject) : PlanningWorld :=
  { pw with objects := assocSet pw.objects obj.name obj }

/-- `SapienPlanningWorld.add_object` (`conversion.py` lines 443-472): for an
entity, convert its rigid component's collision shapes at the current global
pose and register the result if the conversion produced an entry; for an FCL
object, delegate to the base registration. -/
def add_object (pw : PlanningWorld) (obj : Sum FCLObject SimEntity) :
    PlanningWorld :=
  match obj with
  | .inl fcl_obj => add_object_fcl pw fcl_obj
  | .inr e =>
      match convert_physx_component (entityComponent e) with
      | some fcl_obj => add_object_fcl pw fcl_obj
      | none => pw

/-- The out-of-sync error raised by the articulation loop of
`update_from_simulation` (`conversion.py` lines 143-146). -/
def outOfSyncMsg (name : String) : String :=
  "Articulation " ++ name ++ " not found in PlanningWorld! " ++
  "The scene might have changed since last update."

/-- One iteration of the articulation loop of `update_from_simulation`
(`conversion.py` lines 137-146): refresh the registered model's base pose and
full joint configuration, or raise the out-of-sync error. -/
def updateArticulation (pw : PlanningWorld) (a : SimArticulation) :
    Except String PlanningWorld :=
  match assocFind pw.articulations (convert_object_name (.art a)) with
  | some art =>
      let art2 := { art with base_pose := a.root_pose, qpos := a.qpos }
      .ok { pw with articulations :=
              assocSet pw.articulations (convert_object_name (.art a)) art2 }
  | none => .error (outOfSyncMsg a.name)

/-- The non-fatal warning emitted by the actor loop of
`update_from_simulation` (`conversion.py` lines 177-182). -/
def warnMsg (name : String) : String :=
  "Entity " ++ name ++ " not found in PlanningWorld! " ++
  "The scene might have changed since last update. " ++
  "Use PlanningWorld.add_object() to add the object."

/-- One iteration of the actor loop of `update_from_simulation`
(`conversion.py` lines 148-182): refresh an attached object's pose, or
overwrite a registered object's entry at the current world pose (keeping its
shapes and shape poses), or — for an unknown entity whose rigid component
carries collision shapes — emit the non-fatal warning without mutating the
world. -/
def processActor (update_attached_object : Bool) (pw : PlanningWorld)
    (e : SimEntity) : PlanningWorld × List String :=
  let object_name := convert_object_name (.ent e)
  match assocFind pw.attached object_name with
  | some attached_body =>
      let ab := if update_attached_object
        then { attached_body with
                 pose := Pose3.mul attached_body.link_global_pose.inv e.pose }
        else attached_body
      ({ pw with attached := assocSet pw.attached object_name ab }, [])
  | none =>
      match assocFind pw.objects object_name with
      | some fcl_obj =>
          (add_object_fcl pw
             ⟨object_name, e.pose, fcl_obj.shapes, fcl_obj.shape_poses⟩, [])
      | none =>
          if 0 < (entityComponent e).collision_shapes.length then
            (pw, [warnMsg e.name])
          else (pw, [])

/-- `SapienPlanningWorld.update_from_simulation` (`conversion.py` lines
128-182): the articulation loop (which can raise the out-of-sync error)
followed by the actor loop, collecting the emitted warnings in order. -/
def update_from_simulation (pw : PlanningWorld) (scene : SimScene)
    (update_attached_object : Bool) :
    Except String (PlanningWorld × List String) := do
  let pw1 ← scene.articulations.foldlM updateArticulation pw
  .ok (scene.actors.foldl
    (fun acc e =>
      let step := processActor update_attached_object acc.1 e
      (step.1, acc.2 ++ step.2))
    (pw1, ([] : List String)))

/-- The planning world after one successful articulation refresh step: the
registered model re-bound with the refreshed base pose and joint positions. -/
def refreshArt (pw : PlanningWorld) (a : SimArticulation) (art : ArtModel) :
    PlanningWorld :=
  let art2 : ArtModel := { art with base_pose := a.root_pose, qpos := a.qpos }
  { pw with articulations :=
      assocSet pw.articulations (convert_object_name (.art a)) art2 }

/-- The declared (simulation-side) name of an object reference, used in the
not-found error message. -/
def objDeclaredName : SimObj → String
  | .art a => a.name
  | .ent e => e.name

/-- The reference has no registered entry of its kind in the planning world. -/
def unregisteredIn (pw : PlanningWorld) : SimObj → Prop
  | .art a => assocFind pw.articulations (convert_object_name (.art a)) = none
  | .ent e => assocFind pw.objects (convert_object_name (.ent e)) = none

/-- The live objects of one scene on which unique names are formed: all
articulations and all standalone actor entities. -/
def sceneObjs (s : SimScene) : List SimObj :=
  s.articulations.map .art ++ s.actors.map .ent

/-- The per-scene id feeding an object's unique name: an articulation's root
link entity id, a standalone entity's own id. -/
def objSceneId : SimObj → Nat
  | .art a => a.root_id
  | .ent e => e.per_scene_id

/-! ## Concrete fixtures for witnesses and counterexamples -/

/-- A concrete sphere shape. -/
def exampleShapeSphere : PhysxCollisionShape := ⟨.sphere 1, Pose3.id⟩

/-- A concrete box shape. -/
def exampleShapeBox : PhysxCollisionShape := ⟨.box ⟨1, 2, 3⟩, Pose3.id⟩

/-- A concrete component with no collision shapes. -/
def exampleComp0 : PhysxComponent := ⟨false, "", "obj", 7, Pose3.id, []⟩

/-- A concrete component with two collision shapes. -/
def exampleComp2 : PhysxComponent :=
  ⟨false, "", "obj", 7, Pose3.id, [exampleShapeSphere, exampleShapeBox]⟩

/-- A concrete registered FCL object named "o1_1". -/
def ceObj1 : FCLObject := ⟨"o1_1", Pose3.id, [⟨.Sphere 1⟩], [Pose3.id]⟩

/-- A concrete registered FCL object named "o2_2". -/
def ceObj2 : FCLObject := ⟨"o2_2", Pose3.id, [⟨.Sphere 1⟩], [Pose3.id]⟩

/-- A concrete planning world with the two objects registered. -/
def cePW : PlanningWorld := ⟨[], [("o1_1", ceObj1), ("o2_2", ceObj2)], []⟩

/-- A concrete backend whose pairwise narrow phase always reports a
collision at distance 0. -/
def ceBackend : Backend :=
  ⟨fun _ _ => ⟨true⟩, fun _ _ => ⟨0⟩, fun _ _ _ => [],
   fun _ _ _ => WorldDistanceResult.default⟩

/-- A concrete ACM marking every pair never-allow. -/
def ceACMNever : ACM := fun _ _ => some AllowedCollision.NEVER

/-- A concrete live entity resolving to "o1_1". -/
def ceEnt1 : SimEntity := ⟨"o1", 1, Pose3.id, [exampleShapeSphere]⟩

/-- A concrete live entity resolving to "o2_2". -/
def ceEnt2 : SimEntity := ⟨"o2", 2, Pose3.id, [exampleShapeSphere]⟩

/-- A concrete live articulation resolving to "r_5". -/
def ceArt : SimArticulation := ⟨"r", 5, rotY90Pose, [1, 2]⟩

/-- A concrete planning world with the articulation "r_5" registered. -/
def cePWArt : PlanningWorld :=
  ⟨[("r_5", ⟨Pose3.id, [0, 0], ⟨0⟩⟩)], [("o1_1", ceObj1)], []⟩

/-- A concrete scene containing the articulation and one registered actor. -/
def ceScene : SimScene := ⟨[ceArt], [ceEnt1]⟩

/-- A concrete scene with one articulation and two actors, one of which
shares the articulation's declared name but not its id. -/
def ceScene9 : SimScene :=
  ⟨[⟨"r", 5, Pose3.id, []⟩],
   [⟨"r", 1, Pose3.id, []⟩, ⟨"b", 2, Pose3.id, []⟩]⟩

/-! ## Helper lemmas -/

/-- The shape loop of `convert_physx_component` appends, for each source
shape in order, the converted geometry to the first list and the final stored
local pose to the second. -/
theorem convert_foldl_eq (shapes : List PhysxCollisionShape)
    (acc1 : List CollisionObject) (acc2 : List Pose3) :
    shapes.foldl
      (fun (acc : List CollisionObject × List Pose3) shape =>
        let conv := convertShape shape
        (acc.1 ++ [⟨conv.1⟩], acc.2 ++ [conv.2]))
      (acc1, acc2) =
    (acc1 ++ shapes.map (fun s => ⟨(convertShape s).1⟩),
     acc2 ++ shapes.map (fun s => (convertShape s).2)) := by
  induction shapes generalizing acc1 acc2 with
  | nil => simp
  | cons s rest ih => simp [List.foldl_cons, ih]

/-! ## Claim theorems -/

/-- C1: for every capsule or cylinder collision shape, conversion produces a
geometry with the source radius and full length twice the source half-length,
and stores the shape's local pose post-multiplied by the fixed 90-degree
rotation about the y-axis; a shape with identity source local pose is stored
with local pose equal to that pure y-rotation, and in general the stored
pose's local z-axis (planning height axis) coincides with the source pose's
local x-axis (engine height axis). -/
theorem capsule_cylinder_axis_fixup (lp : Pose3) (r hl : ℚ) :
    (convertShape ⟨.capsule r hl, lp⟩ =
        (CGeom.Capsule r (2 * hl), Pose3.mul lp rotY90Pose) ∧
     convertShape ⟨.cylinder r hl, lp⟩ =
        (CGeom.Cylinder r (2 * hl), Pose3.mul lp rotY90Pose)) ∧
    ((convertShape ⟨.capsule r hl, Pose3.id⟩).2 = rotY90Pose ∧
     (convertShape ⟨.cylinder r hl, Pose3.id⟩).2 = rotY90Pose) ∧
    (Mat3.app (convertShape ⟨.capsule r hl, lp⟩).2.R Vec3.ez =
        Mat3.app lp.R Vec3.ex ∧
     Mat3.app (convertShape ⟨.cylinder r hl, lp⟩).2.R Vec3.ez =
        Mat3.app lp.R Vec3.ex) := by
  have hid : Pose3.mul Pose3.id rotY90Pose = rotY90Pose := by
    simp [Pose3.mul, Pose3.id, Mat3.mul, Mat3.app, Mat3.id, Vec3.add,
      Vec3.smul, Vec3.ex, Vec3.ey, Vec3.ez, Vec3.zero, rotY90Pose, rotY90]
  refine ⟨⟨rfl, rfl⟩, ⟨hid, hid⟩, ?_, ?_⟩ <;>
    simp [convertShape, Pose3.mul, Mat3.mul, Mat3.app, Vec3.add, Vec3.smul,
      rotY90Pose, rotY90, Vec3.ex, Vec3.ey, Vec3.ez, Vec3.zero]

/-- C2: converting a rigid-body component with an empty collision-shape list
yields no entry (`None`); converting one with at least one shape yields one
entry whose geometry list and local-pose list both have the length of the
source shape list and are the in-order per-shape conversions. -/
theorem convert_component_entry (comp : PhysxComponent) :
    (comp.collision_shapes = [] → convert_physx_component comp = none) ∧
    (comp.collision_shapes ≠ [] →
      ∃ obj, convert_physx_component comp = some obj ∧
        obj.shapes.length = comp.collision_shapes.length ∧
        obj.shape_poses.length = comp.collision_shapes.length ∧
        obj.shapes = comp.collision_shapes.map (fun s => ⟨(convertShape s).1⟩) ∧
        obj.shape_poses =
          comp.collision_shapes.map (fun s => (convertShape s).2)) := by
  constructor
  · intro h
    simp [convert_physx_component, h]
  · intro h
    refine ⟨⟨(if comp.is_link then comp.link_name
        else entityUniqueName comp.entity_name comp.entity_id),
        comp.entity_pose,
        comp.collision_shapes.map (fun s => ⟨(convertShape s).1⟩),
        comp.collision_shapes.map (fun s => (convertShape s).2)⟩, ?_, by simp,
        by simp, rfl, rfl⟩
    simp only [convert_physx_component, convert_foldl_eq, List.nil_append]
    simp [h]

/-- C3: for every plane/half-space collision shape, conversion sets the
geometry's normal to the pose's local x-axis direction, the signed offset to
the dot product of that normal with the pose's translation, and resets the
stored local pose to the identity; in particular a pose translated distance
`d` along its local x-axis whose x-axis is the world z-axis yields normal
(0,0,1) and offset `d`. -/
theorem halfspace_conversion (lp : Pose3) :
    convertShape ⟨.plane, lp⟩ =
      (CGeom.Halfspace lp.R.cx (Vec3.dot lp.R.cx lp.p), Pose3.id) ∧
    (∀ (R : Mat3) (d : ℚ), R.cx = Vec3.ez →
      convertShape ⟨.plane, ⟨R, Vec3.smul d R.cx⟩⟩ =
        (CGeom.Halfspace Vec3.ez d, Pose3.id)) := by
  refine ⟨rfl, ?_⟩
  intro R d h
  simp [convertShape, h, Vec3.dot, Vec3.smul, Vec3.ez]

/-- Witness for C3 at a concrete rotation sending the local x-axis to the
world z-axis and distance 2. -/
theorem halfspace_conversion_witness :
    convertShape ⟨.plane, ⟨⟨⟨0, 0, 1⟩, ⟨0, 1, 0⟩, ⟨-1, 0, 0⟩⟩,
        Vec3.smul 2 (Mat3.cx ⟨⟨0, 0, 1⟩, ⟨0, 1, 0⟩, ⟨-1, 0, 0⟩⟩)⟩⟩ =
      (CGeom.Halfspace Vec3.ez 2, Pose3.id) :=
  (halfspace_conversion Pose3.id).2 ⟨⟨0, 0, 1⟩, ⟨0, 1, 0⟩, ⟨-1, 0, 0⟩⟩ 2 rfl

/-- C10: `add_object` on an entity whose rigid component has zero collision
shapes is a silent no-op: the planning world is returned unchanged. -/
theorem add_object_empty_noop (pw : PlanningWorld) (e : SimEntity)
    (h : e.collision_shapes = []) : add_object pw (.inr e) = pw := by
  simp [add_object, convert_physx_component, entityComponent, h]

/-- Witness for C10: adding a concrete shapeless entity to a concrete world
leaves it unchanged. -/
theorem add_object_empty_noop_witness :
    add_object ⟨[], [("b_1", ⟨"b_1", Pose3.id, [], []⟩)], []⟩
        (.inr ⟨"a", 3, Pose3.id, []⟩) =
      ⟨[], [("b_1", ⟨"b_1", Pose3.id, [], []⟩)], []⟩ :=
  add_object_empty_noop _ _ rfl

/-- Witness for C2: the concrete shapeless component converts to no entry,
and the concrete two-shape component converts to one entry with two in-order
(geometry, pose) pairs. -/
theorem convert_component_entry_witness :
    convert_physx_component exampleComp0 = none ∧
    ∃ obj, convert_physx_component exampleComp2 = some obj ∧
      obj.shapes.length = exampleComp2.collision_shapes.length ∧
      obj.shape_poses.length = exampleComp2.collision_shapes.length ∧
      obj.shapes =
        exampleComp2.collision_shapes.map (fun s => ⟨(convertShape s).1⟩) ∧
      obj.shape_poses =
        exampleComp2.collision_shapes.map (fun s => (convertShape s).2) :=
  ⟨(convert_component_entry exampleComp0).1 rfl,
   (convert_component_entry exampleComp2).2 (by simp [exampleComp2])⟩

/-! ## Query dispatch claims -/

/-- Bind on a successful `Except` computation applies the continuation. -/
theorem except_bind_ok {ε α β : Type} (a : α) (f : α → Except ε β) :
    (Except.ok a : Except ε α) >>= f = f a := rfl

/-- Bind on a failed `Except` computation propagates the error. -/
theorem except_bind_error {ε α β : Type} (m : ε) (f : α → Except ε β) :
    (Except.error m : Except ε α) >>= f = Except.error m := rfl

/-- The pure value of the `Except` monad is a success. -/
theorem except_pure {ε α : Type} (a : α) :
    (pure a : Except ε α) = Except.ok a := rfl

/-- C6: on the object-object path of both queries, the direct pairwise
primitive runs exactly when the ACM entry for the two entry names is unset or
never-allow — a positive collision (or the computed distance) is wrapped in a
record tagged "object_object" with both entry names — and any other ACM value
yields an empty collision result and skips the distance computation (the
default record is returned). -/
theorem object_object_acm_gating (bk : Backend) (pw : PlanningWorld)
    (eA eB : SimEntity) (a b : FCLObject) (acm : ACM)
    (ha : assocFind pw.objects (convert_object_name (.ent eA)) = some a)
    (hb : assocFind pw.objects (convert_object_name (.ent eB)) = some b) :
    ((acm a.name b.name = none ∨
        acm a.name b.name = some AllowedCollision.NEVER) →
      check_collision_between bk pw (.ent eA) (.ent eB) acm =
        .ok (if (bk.collideFn a b).is_collision then
              [⟨bk.collideFn a b, "object_object",
                a.name, b.name, a.name, b.name⟩]
             else []) ∧
      distance_between bk pw (.ent eA) (.ent eB) acm true =
        .ok (.inl (some (bk.distanceFn a b).min_distance)) ∧
      distance_between bk pw (.ent eA) (.ent eB) acm false =
        .ok (.inr ⟨some (bk.distanceFn a b),
              some (bk.distanceFn a b).min_distance, "object_object",
              a.name, b.name, a.name, b.name⟩)) ∧
    ((∃ v, acm a.name b.name = some v ∧ v ≠ AllowedCollision.NEVER) →
      check_collision_between bk pw (.ent eA) (.ent eB) acm = .ok [] ∧
      distance_between bk pw (.ent eA) (.ent eB) acm true = .ok (.inl none) ∧
      distance_between bk pw (.ent eA) (.ent eB) acm false =
        .ok (.inr WorldDistanceResult.default)) := by
  have hA : _get_collision_obj pw (.ent eA) = .ok (.inr a) := by
    simp [_get_collision_obj, ha]
  have hB : _get_collision_obj pw (.ent eB) = .ok (.inr b) := by
    simp [_get_collision_obj, hb]
  constructor
  · intro h
    refine ⟨?_, ?_, ?_⟩
    · simp only [check_collision_between, hA, hB, except_bind_ok, if_pos h]
      split <;> rfl
    · simp [distance_between, hA, hB, h, except_bind_ok,
        WorldDistanceResult.default]
    · simp [distance_between, hA, hB, h, except_bind_ok,
        WorldDistanceResult.default]
  · rintro ⟨v, hv, hvne⟩
    have h : ¬(acm a.name b.name = none ∨
        acm a.name b.name = some AllowedCollision.NEVER) := by
      simp [hv, hvne]
    refine ⟨?_, ?_, ?_⟩ <;>
      simp [check_collision_between, distance_between, hA, hB, h,
        except_bind_ok, WorldDistanceResult.default]

/-- Witness for C6 at concrete inputs: an unset ACM runs the (always
colliding) primitive and an always-allow ACM suppresses both computations. -/
theorem object_object_acm_gating_witness :
    (check_collision_between ceBackend cePW (.ent ceEnt1) (.ent ceEnt2)
        (fun _ _ => none) =
      .ok [⟨⟨true⟩, "object_object", "o1_1", "o2_2", "o1_1", "o2_2"⟩]) ∧
    (check_collision_between ceBackend cePW (.ent ceEnt1) (.ent ceEnt2)
        (fun _ _ => some AllowedCollision.ALWAYS) = .ok []) ∧
    (distance_between ceBackend cePW (.ent ceEnt1) (.ent ceEnt2)
        (fun _ _ => some AllowedCollision.ALWAYS) true = .ok (.inl none)) := by
  have h1 := (object_object_acm_gating ceBackend cePW ceEnt1 ceEnt2 ceObj1
    ceObj2 (fun _ _ => none) rfl rfl).1 (Or.inl rfl)
  have h2 := (object_object_acm_gating ceBackend cePW ceEnt1 ceEnt2 ceObj1
    ceObj2 (fun _ _ => some AllowedCollision.ALWAYS) rfl rfl).2
    ⟨AllowedCollision.ALWAYS, rfl, by simp⟩
  exact ⟨by simpa [ceBackend, ceObj1, ceObj2] using h1.1, h2.1, h2.2.1⟩

/-- C7 counterexample: with the pair marked never-allow and a narrow phase
that reports a collision, the collision query reports the collision (one
object_object record) rather than an empty list, refuting the claim that a
never-allow pair reports none. -/
theorem never_allow_counterexample :
    check_collision_between ceBackend cePW (.ent ceEnt1) (.ent ceEnt2)
        ceACMNever =
      .ok [⟨⟨true⟩, "object_object", "o1_1", "o2_2", "o1_1", "o2_2"⟩] ∧
    check_collision_between ceBackend cePW (.ent ceEnt1) (.ent ceEnt2)
        ceACMNever ≠ .ok [] := by
  constructor
  · rfl
  · intro h
    simpa using h.symm.trans (by rfl :
      check_collision_between ceBackend cePW (.ent ceEnt1) (.ent ceEnt2)
          ceACMNever =
        .ok [⟨⟨true⟩, "object_object", "o1_1", "o2_2", "o1_1", "o2_2"⟩])

/-- C7 (amended): for an object-object pair marked never-allow in the ACM,
a collision query whose pairwise primitive reports a collision returns that
collision as one object_object record (never-allow means the pair is checked,
not suppressed). -/
theorem never_allow_reports_collision (bk : Backend) (pw : PlanningWorld)
    (eA eB : SimEntity) (a b : FCLObject) (acm : ACM)
    (ha : assocFind pw.objects (convert_object_name (.ent eA)) = some a)
    (hb : assocFind pw.objects (convert_object_name (.ent eB)) = some b)
    (hacm : acm a.name b.name = some AllowedCollision.NEVER)
    (hcol : (bk.collideFn a b).is_collision = true) :
    check_collision_between bk pw (.ent eA) (.ent eB) acm =
      .ok [⟨bk.collideFn a b, "object_object",
            a.name, b.name, a.name, b.name⟩] := by
  have h := ((object_object_acm_gating bk pw eA eB a b acm ha hb).1
    (Or.inr hacm)).1
  rw [h, if_pos hcol]

/-- Witness for the amended C7 at the concrete never-allow fixture. -/
theorem never_allow_reports_collision_witness :
    check_collision_between ceBackend cePW (.ent ceEnt1) (.ent ceEnt2)
        ceACMNever =
      .ok [⟨⟨true⟩, "object_object", "o1_1", "o2_2", "o1_1", "o2_2"⟩] := by
  simpa [ceBackend, ceObj1, ceObj2] using
    never_allow_reports_collision ceBackend cePW ceEnt1 ceEnt2 ceObj1 ceObj2
      ceACMNever rfl rfl rfl rfl

/-- C8: resolving an unregistered reference fails with the not-found error,
and both the collision query and the distance query fail (rather than
returning an empty / default result) whenever either argument is
unregistered. -/
theorem unregistered_input_raises (bk : Backend) (pw : PlanningWorld)
    (o other : SimObj) (acm : ACM) (h : unregisteredIn pw o) :
    _get_collision_obj pw o = .error (notFoundMsg (objDeclaredName o)) ∧
    (∃ m, check_collision_between bk pw o other acm = .error m) ∧
    (∃ m, check_collision_between bk pw other o acm = .error m) ∧
    (∀ rdo, (∃ m, distance_between bk pw o other acm rdo = .error m) ∧
      (∃ m, distance_between bk pw other o acm rdo = .error m)) := by
  have hE : _get_collision_obj pw o = .error (notFoundMsg (objDeclaredName o)) := by
    cases o with
    | art a => simp only [unregisteredIn] at h; simp [_get_collision_obj, h,
        objDeclaredName]
    | ent e => simp only [unregisteredIn] at h; simp [_get_collision_obj, h,
        objDeclaredName]
  refine ⟨hE, ?_, ?_, ?_⟩
  · exact ⟨notFoundMsg (objDeclaredName o),
      by simp [check_collision_between, hE, except_bind_error]⟩
  · rcases hO : _get_collision_obj pw other with m | c
    · exact ⟨m, by simp [check_collision_between, hO, except_bind_error]⟩
    · exact ⟨notFoundMsg (objDeclaredName o), by
        simp [check_collision_between, hO, hE, except_bind_ok,
          except_bind_error]⟩
  · intro rdo
    constructor
    · exact ⟨notFoundMsg (objDeclaredName o),
        by simp [distance_between, hE, except_bind_error]⟩
    · rcases hO : _get_collision_obj pw other with m | c
      · exact ⟨m, by simp [distance_between, hO, except_bind_error]⟩
      · exact ⟨notFoundMsg (objDeclaredName o), by
          simp [distance_between, hO, hE, except_bind_ok,
            except_bind_error]⟩

/-- Witness for C8: in a world with only "o1_1" registered, a query against
an unregistered entity fails. -/
theorem unregistered_input_raises_witness :
    (∃ m, check_collision_between ceBackend ⟨[], [("o1_1", ceObj1)], []⟩
      (.ent ⟨"ghost", 9, Pose3.id, []⟩) (.ent ceEnt1) (fun _ _ => none) =
        .error m) ∧
    (∃ m, check_collision_between ceBackend ⟨[], [("o1_1", ceObj1)], []⟩
      (.ent ceEnt1) (.ent ⟨"ghost", 9, Pose3.id, []⟩) (fun _ _ => none) =
        .error m) := by
  have h := unregistered_input_raises ceBackend ⟨[], [("o1_1", ceObj1)], []⟩
    (.ent ⟨"ghost", 9, Pose3.id, []⟩) (.ent ceEnt1) (fun _ _ => none) rfl
  exact ⟨h.2.1, h.2.2.1⟩

/-! ## Registry lemmas for the synchronization claims -/

/-- A lookup succeeds exactly when the key is in the registry's name set. -/
theorem assocFind_isSome_iff {α : Type} (l : List (String × α)) (k : String) :
    (assocFind l k).isSome ↔ k ∈ keys l := by
  induction l with
  | nil => simp [assocFind, keys]
  | cons p t ih =>
    by_cases h : p.1 = k
    · simp [assocFind, keys, h]
    · have hb : (p.1 == k) = false := by simp [h]
      simp [assocFind, keys, hb, ih, Ne.symm h]

/-- A lookup fails exactly when the key is outside the registry's name set. -/
theorem assocFind_none_iff {α : Type} (l : List (String × α)) (k : String) :
    assocFind l k = none ↔ k ∉ keys l := by
  rw [← assocFind_isSome_iff, Option.not_isSome_iff_eq_none]

/-- Looking up the key just set yields the new value. -/
theorem assocFind_assocSet_self {α : Type} (l : List (String × α)) (k : String)
    (v : α) : assocFind (assocSet l k v) k = some v := by
  induction l with
  | nil => simp [assocSet, assocFind]
  | cons p t ih =>
    by_cases h : p.1 = k
    · simp [assocSet, assocFind, h]
    · have hb : (p.1 == k) = false := by simp [h]
      simp [assocSet, assocFind, hb, ih]

/-- Setting one key does not affect the lookup of another. -/
theorem assocFind_assocSet_other {α : Type} (l : List (String × α))
    (k k' : String) (v : α) (h : k' ≠ k) :
    assocFind (assocSet l k' v) k = assocFind l k := by
  induction l with
  | nil => simp [assocSet, assocFind, h]
  | cons p t ih =>
    by_cases hp : p.1 = k'
    · have hpk : (p.1 == k) = false := by simp [hp, h]
      have hkk : (k' == k) = false := by simp [h]
      simp [assocSet, assocFind, hp, hpk, hkk]
    · have hb : (p.1 == k') = false := by simp [hp]
      simp [assocSet, assocFind, hb, ih]

/-- Overwriting a key that a lookup already finds keeps the name set. -/
theorem keys_assocSet_found {α : Type} (l : List (String × α)) (k : String)
    (v w : α) (h : assocFind l k = some w) :
    keys (assocSet l k v) = keys l := by
  induction l with
  | nil => simp [assocFind] at h
  | cons p t ih =>
    by_cases hp : p.1 = k
    · simp [assocSet, keys, hp]
    · have hb : (p.1 == k) = false := by simp [hp]
      have ht : assocFind t k = some w := by simpa [assocFind, hb] using h
      have hk := ih ht
      simp only [keys] at hk
      simp [assocSet, keys, hb, hk]

/-- A successful articulation step preserves the articulation name set and
leaves the object and attached registries untouched. -/
theorem updateArticulation_ok (pw : PlanningWorld) (a : SimArticulation)
    (pw' : PlanningWorld) (h : updateArticulation pw a = .ok pw') :
    keys pw'.articulations = keys pw.articulations ∧
    pw'.objects = pw.objects ∧ pw'.attached = pw.attached := by
  unfold updateArticulation at h
  rcases hf : assocFind pw.articulations (convert_object_name (.art a))
    with _ | art
  · rw [hf] at h
    cases h
  · rw [hf] at h
    injection h with h
    subst h
    exact ⟨keys_assocSet_found _ _ _ _ hf, rfl, rfl⟩

/-- If some live articulation has no registered model, the articulation fold
fails with the out-of-sync error of such an articulation. -/
theorem foldArts_error (arts : List SimArticulation) (pw : PlanningWorld)
    (h : ∃ a ∈ arts,
      assocFind pw.articulations (convert_object_name (.art a)) = none) :
    ∃ a ∈ arts,
      assocFind pw.articulations (convert_object_name (.art a)) = none ∧
      arts.foldlM updateArticulation pw = .error (outOfSyncMsg a.name) := by
  induction arts generalizing pw with
  | nil => simp at h
  | cons a t ih =>
    rcases hf : assocFind pw.articulations (convert_object_name (.art a))
      with _ | art
    · refine ⟨a, by simp, hf, ?_⟩
      simp [List.foldlM_cons, updateArticulation, hf, except_bind_error]
    · rcases h with ⟨x, hx, hxn⟩
      have hxa : x ≠ a := by
        intro he
        rw [he, hf] at hxn
        cases hxn
      have hxt : x ∈ t := by
        rcases List.mem_cons.mp hx with h1 | h1
        · exact absurd h1 hxa
        · exact h1
      have hstep : updateArticulation pw a = .ok (refreshArt pw a art) := by
        simp [updateArticulation, hf, refreshArt]
      have hk1 : keys (refreshArt pw a art).articulations =
          keys pw.articulations :=
        keys_assocSet_found _ _ _ _ hf
      have hxn1 : assocFind (refreshArt pw a art).articulations
          (convert_object_name (.art x)) = none := by
        rw [assocFind_none_iff, hk1, ← assocFind_none_iff]
        exact hxn
      rcases ih (refreshArt pw a art) ⟨x, hxt, hxn1⟩ with ⟨y, hyt, hyn, hfold⟩
      refine ⟨y, List.mem_cons_of_mem _ hyt, ?_, ?_⟩
      · rw [assocFind_none_iff, ← hk1, ← assocFind_none_iff]
        exact hyn
      · simp [List.foldlM_cons, hstep, except_bind_ok, hfold]

/-- A successful articulation fold preserves the articulation name set and
leaves the object and attached registries untouched. -/
theorem foldArts_ok_state (arts : List SimArticulation) (pw pw' : PlanningWorld)
    (hok : arts.foldlM updateArticulation pw = .ok pw') :
    keys pw'.articulations = keys pw.articulations ∧
    pw'.objects = pw.objects ∧ pw'.attached = pw.attached := by
  induction arts generalizing pw with
  | nil =>
    rw [List.foldlM_nil, except_pure] at hok
    injection hok with hok
    subst hok
    exact ⟨rfl, rfl, rfl⟩
  | cons a t ih =>
    rcases hstep : updateArticulation pw a with m | pw1
    · rw [List.foldlM_cons, hstep, except_bind_error] at hok
      cases hok
    · rw [List.foldlM_cons, hstep, except_bind_ok] at hok
      have h1 := updateArticulation_ok pw a pw1 hstep
      have h2 := ih pw1 hok
      exact ⟨h2.1.trans h1.1, h2.2.1.trans h1.2.1, h2.2.2.trans h1.2.2⟩

/-- If every live articulation has a registered model, the articulation fold
succeeds. -/
theorem foldArts_ok (arts : List SimArticulation) (pw : PlanningWorld)
    (h : ∀ a ∈ arts,
      (assocFind pw.articulations (convert_object_name (.art a))).isSome) :
    ∃ pw', arts.foldlM updateArticulation pw = .ok pw' := by
  induction arts generalizing pw with
  | nil => exact ⟨pw, rfl⟩
  | cons a t ih =>
    rcases hf : assocFind pw.articulations (convert_object_name (.art a))
      with _ | art
    · have := h a (by simp)
      rw [hf] at this
      cases this
    · have hstep : updateArticulation pw a = .ok (refreshArt pw a art) := by
        simp [updateArticulation, hf, refreshArt]
      have hk1 : keys (refreshArt pw a art).articulations =
          keys pw.articulations :=
        keys_assocSet_found _ _ _ _ hf
      have ht : ∀ x ∈ t,
          (assocFind (refreshArt pw a art).articulations
            (convert_object_name (.art x))).isSome := by
        intro x hx
        rw [assocFind_isSome_iff, hk1, ← assocFind_isSome_iff]
        exact h x (List.mem_cons_of_mem _ hx)
      rcases ih (refreshArt pw a art) ht with ⟨pw', hfold⟩
      exact ⟨pw', by simp [List.foldlM_cons, hstep, except_bind_ok, hfold]⟩

/-- A successful articulation fold does not move the binding of a name that
belongs to none of the folded articulations. -/
theorem foldArts_stable (arts : List SimArticulation) (pw pw' : PlanningWorld)
    (K : String) (hok : arts.foldlM updateArticulation pw = .ok pw')
    (hK : ∀ a ∈ arts, convert_object_name (.art a) ≠ K) :
    assocFind pw'.articulations K = assocFind pw.articulations K := by
  induction arts generalizing pw with
  | nil =>
    rw [List.foldlM_nil, except_pure] at hok
    injection hok with hok
    subst hok
    rfl
  | cons a t ih =>
    rcases hf : assocFind pw.articulations (convert_object_name (.art a))
      with _ | art
    · rw [List.foldlM_cons] at hok
      rw [show updateArticulation pw a = .error (outOfSyncMsg a.name) by
        simp [updateArticulation, hf], except_bind_error] at hok
      cases hok
    · have hstep : updateArticulation pw a = .ok (refreshArt pw a art) := by
        simp [updateArticulation, hf, refreshArt]
      rw [List.foldlM_cons, hstep, except_bind_ok] at hok
      have h1 : assocFind (refreshArt pw a art).articulations K =
          assocFind pw.articulations K :=
        assocFind_assocSet_other _ _ _ _ (hK a (by simp))
      rw [ih (refreshArt pw a art) hok
        (fun x hx => hK x (List.mem_cons_of_mem _ hx)), h1]

/-- After a successful articulation fold with pairwise-distinct unique names,
every live articulation's registered model carries the refreshed base pose
and joint configuration. -/
theorem foldArts_refresh (arts : List SimArticulation) (pw pw' : PlanningWorld)
    (hnod : (arts.map (fun a => convert_object_name (.art a))).Nodup)
    (hok : arts.foldlM updateArticulation pw = .ok pw') :
    ∀ a ∈ arts, ∃ m,
      assocFind pw'.articulations (convert_object_name (.art a)) = some m ∧
      m.base_pose = a.root_pose ∧ m.qpos = a.qpos := by
  induction arts generalizing pw with
  | nil => intro a ha; simp at ha
  | cons a t ih =>
    rcases hf : assocFind pw.articulations (convert_object_name (.art a))
      with _ | art
    · rw [List.foldlM_cons] at hok
      rw [show updateArticulation pw a = .error (outOfSyncMsg a.name) by
        simp [updateArticulation, hf], except_bind_error] at hok
      cases hok
    · have hstep : updateArticulation pw a = .ok (refreshArt pw a art) := by
        simp [updateArticulation, hf, refreshArt]
      rw [List.foldlM_cons, hstep, except_bind_ok] at hok
      rw [List.map_cons, List.nodup_cons] at hnod
      intro x hx
      rcases List.mem_cons.mp hx with h1 | h1
      · subst h1
        have hstable : assocFind pw'.articulations (convert_object_name (.art x)) =
            assocFind (refreshArt pw x art).articulations
              (convert_object_name (.art x)) := by
          apply foldArts_stable t (refreshArt pw x art) pw' _ hok
          intro y hy he
          exact hnod.1 (List.mem_map.mpr ⟨y, hy, he⟩)
        refine ⟨{ art with base_pose := x.root_pose, qpos := x.qpos }, ?_, rfl, rfl⟩
        rw [hstable]
        exact assocFind_assocSet_self _ _ _
      · exact ih (refreshArt pw a art) hnod.2 hok x h1

/-- One actor step preserves the articulation registry exactly and the name
sets of the object and attached registries. -/
theorem processActor_keys (u : Bool) (pw : PlanningWorld) (e : SimEntity) :
    (processActor u pw e).1.articulations = pw.articulations ∧
    keys (processActor u pw e).1.objects = keys pw.objects ∧
    keys (processActor u pw e).1.attached = keys pw.attached := by
  unfold processActor
  rcases h1 : assocFind pw.attached (convert_object_name (.ent e)) with _ | ab
  · rcases h2 : assocFind pw.objects (convert_object_name (.ent e)) with _ | fcl
    · by_cases h3 : 0 < (entityComponent e).collision_shapes.length <;>
        simp [h1, h2, h3]
    · simp [h1, h2, add_object_fcl, keys_assocSet_found _ _ _ _ h2]
  · simp [h1, keys_assocSet_found _ _ _ _ h1]

/-- The actor fold preserves the articulation registry exactly and the name
sets of the object and attached registries. -/
theorem foldActors_keys (u : Bool) (actors : List SimEntity)
    (pw : PlanningWorld) (ws : List String) :
    ((actors.foldl (fun acc e =>
        let step := processActor u acc.1 e
        (step.1, acc.2 ++ step.2)) (pw, ws)).1.articulations =
      pw.articulations) ∧
    keys ((actors.foldl (fun acc e =>
        let step := processActor u acc.1 e
        (step.1, acc.2 ++ step.2)) (pw, ws)).1.objects) = keys pw.objects ∧
    keys ((actors.foldl (fun acc e =>
        let step := processActor u acc.1 e
        (step.1, acc.2 ++ step.2)) (pw, ws)).1.attached) = keys pw.attached := by
  induction actors generalizing pw ws with
  | nil => exact ⟨rfl, rfl, rfl⟩
  | cons e t ih =>
    simp only [List.foldl_cons]
    have hp := processActor_keys u pw e
    have hi := ih (processActor u pw e).1 (ws ++ (processActor u pw e).2)
    exact ⟨hi.1.trans hp.1, hi.2.1.trans hp.2.1, hi.2.2.trans hp.2.2⟩

/-- C4: for every live articulation enumerated during synchronization, if no
registered model with the articulation's unique name exists, synchronization
fails with the out-of-sync error of such an articulation; if every live
articulation has a registered model (with distinct unique names),
synchronization succeeds and refreshes each model's base pose and full joint
configuration from the simulation state. -/
theorem sync_articulation_refresh (pw : PlanningWorld) (scene : SimScene)
    (u : Bool) :
    ((∃ a ∈ scene.articulations,
        assocFind pw.articulations (convert_object_name (.art a)) = none) →
      ∃ a ∈ scene.articulations,
        assocFind pw.articulations (convert_object_name (.art a)) = none ∧
        update_from_simulation pw scene u = .error (outOfSyncMsg a.name)) ∧
    ((∀ a ∈ scene.articulations,
        (assocFind pw.articulations (convert_object_name (.art a))).isSome) →
     (scene.articulations.map (fun a => convert_object_name (.art a))).Nodup →
      ∃ pw' warns, update_from_simulation pw scene u = .ok (pw', warns) ∧
        ∀ a ∈ scene.articulations, ∃ m,
          assocFind pw'.articulations (convert_object_name (.art a)) = some m ∧
          m.base_pose = a.root_pose ∧ m.qpos = a.qpos) := by
  constructor
  · intro h
    rcases foldArts_error scene.articulations pw h with ⟨a, ha, hn, hfold⟩
    exact ⟨a, ha, hn,
      by simp [update_from_simulation, hfold, except_bind_error]⟩
  · intro h hnod
    rcases foldArts_ok scene.articulations pw h with ⟨pw1, hfold⟩
    set res := scene.actors.foldl (fun acc e =>
        let step := processActor u acc.1 e
        (step.1, acc.2 ++ step.2)) (pw1, ([] : List String))
    refine ⟨res.1, res.2, ?_, ?_⟩
    · simp [update_from_simulation, hfold, except_bind_ok, res]
    · intro a ha
      rcases foldArts_refresh scene.articulations pw pw1 hnod hfold a ha
        with ⟨m, hm, hb, hq⟩
      refine ⟨m, ?_, hb, hq⟩
      have harts : res.1.articulations = pw1.articulations :=
        (foldActors_keys u scene.actors pw1 []).1
      rw [harts]
      exact hm

/-- C5: synchronization never adds a new entry to the planning world — an
unknown live standalone body carrying collision shapes only produces the
non-fatal warning, with the planning world returned unchanged, and any
successful synchronization leaves the membership (name sets) of all three
registries unchanged. -/
theorem sync_never_adds (u : Bool) (pw : PlanningWorld) (e : SimEntity)
    (scene : SimScene) :
    (assocFind pw.attached (convert_object_name (.ent e)) = none →
     assocFind pw.objects (convert_object_name (.ent e)) = none →
     e.collision_shapes ≠ [] →
     processActor u pw e = (pw, [warnMsg e.name])) ∧
    (∀ pw' warns, update_from_simulation pw scene u = .ok (pw', warns) →
      keys pw'.articulations = keys pw.articulations ∧
      keys pw'.objects = keys pw.objects ∧
      keys pw'.attached = keys pw.attached) := by
  constructor
  · intro h1 h2 h3
    have hlen : 0 < (entityComponent e).collision_shapes.length := by
      simpa [entityComponent] using List.length_pos.mpr h3
    simp [processActor, h1, h2, hlen]
  · intro pw' warns hok
    rcases hf : scene.articulations.foldlM updateArticulation pw with m | pw1
    · rw [update_from_simulation, hf, except_bind_error] at hok
      cases hok
    · rw [update_from_simulation, hf, except_bind_ok] at hok
      injection hok with hok
      have hstate := foldArts_ok_state scene.articulations pw pw1 hf
      have hact := foldActors_keys u scene.actors pw1 []
      have hpw' : pw' = (scene.actors.foldl (fun acc e =>
          let step := processActor u acc.1 e
          (step.1, acc.2 ++ step.2)) (pw1, ([] : List String))).1 :=
        (congrArg Prod.fst hok).symm
      refine ⟨?_, ?_, ?_⟩
      · rw [hpw', hact.1, hstate.1]
      · rw [hpw', hact.2.1, hstate.2.1]
      · rw [hpw', hact.2.2, hstate.2.2]

/-! ## Unique-name injectivity (C9) -/

/-- No digit character is an underscore. -/
theorem digitChar_ne_underscore (k : Nat) : digitChar k ≠ '_' := by
  unfold digitChar
  split <;> decide

/-- The decimal expansion never contains an underscore. -/
theorem decReprAux_no_underscore (fuel n : Nat) : '_' ∉ decReprAux fuel n := by
  induction fuel generalizing n with
  | zero => simp [decReprAux]
  | succ f ih =>
    by_cases h : n < 10
    · simp only [decReprAux, if_pos h, List.mem_singleton]
      exact Ne.symm (digitChar_ne_underscore n)
    · simp only [decReprAux, if_neg h, List.mem_append, List.mem_singleton]
      rintro (hm | hm)
      · exact ih (n / 10) hm
      · exact Ne.symm (digitChar_ne_underscore (n % 10)) hm

/-- With enough fuel, the extraction agrees with the reversed base-10 digit
list of a positive number. -/
theorem decReprAux_eq_digits (fuel : Nat) :
    ∀ n : Nat, 0 < n → n < fuel →
      decReprAux fuel n = ((Nat.digits 10 n).reverse.map digitChar) := by
  induction fuel with
  | zero => intro n _ hf; omega
  | succ f ih =>
    intro n hn hf
    by_cases h : n < 10
    · rw [Nat.digits_def' (by norm_num : 1 < 10) hn, Nat.div_eq_of_lt h,
        Nat.digits_zero]
      simp only [decReprAux, if_pos h, List.reverse_cons, List.reverse_nil,
        List.nil_append, List.map_cons, List.map_nil, Nat.mod_eq_of_lt h]
    · have h10 : 0 < n / 10 := Nat.div_pos (le_of_not_lt h) (by norm_num)
      have hlt : n / 10 < f := by
        have := Nat.div_lt_self hn (by norm_num : 1 < 10)
        omega
      rw [Nat.digits_def' (by norm_num : 1 < 10) hn]
      simp only [decReprAux, if_neg h, ih (n / 10) h10 hlt,
        List.reverse_cons, List.map_append, List.map_cons, List.map_nil]

/-- `digitChar` is injective on digit lists. -/
theorem map_digitChar_inj :
    ∀ (l1 l2 : List Nat), (∀ d ∈ l1, d < 10) → (∀ d ∈ l2, d < 10) →
      l1.map digitChar = l2.map digitChar → l1 = l2 := by
  have key : ∀ x < 10, ∀ y < 10, digitChar x = digitChar y → x = y := by decide
  intro l1
  induction l1 with
  | nil =>
    intro l2 _ _ h
    cases l2 with
    | nil => rfl
    | cons b u => simp at h
  | cons a t ih =>
    intro l2 h1 h2 h
    cases l2 with
    | nil => simp at h
    | cons b u =>
      simp only [List.map_cons, List.cons.injEq] at h
      have hd : a = b :=
        key a (h1 a (by simp)) b (h2 b (by simp)) h.1
      have ht : t = u :=
        ih u (fun d hd => h1 d (by simp [hd]))
          (fun d hd => h2 d (by simp [hd])) h.2
      rw [hd, ht]

/-- The decimal digit-character list determines the number. -/
theorem digitsOf_inj (n m : Nat) (h : digitsOf n = digitsOf m) : n = m := by
  have hz : ∀ k : Nat, 0 < k →
      digitsOf k = ((Nat.digits 10 k).reverse.map digitChar) := by
    intro k hk
    exact decReprAux_eq_digits (k + 1) k hk (by omega)
  have hdig : ∀ k : Nat, ∀ d ∈ (Nat.digits 10 k).reverse, d < 10 := by
    intro k d hd
    exact Nat.digits_lt_base (by norm_num) (List.mem_reverse.mp hd)
  rcases Nat.eq_zero_or_pos n with hn | hn
  · rcases Nat.eq_zero_or_pos m with hm | hm
    · rw [hn, hm]
    · exfalso
      subst hn
      rw [hz m hm] at h
      have h0 : digitsOf 0 = ['0'] := rfl
      rw [h0] at h
      have : [0] = (Nat.digits 10 m).reverse :=
        map_digitChar_inj [0] _ (by simp) (hdig m) (by simpa using h)
      have hd : Nat.digits 10 m = [0] := by
        have := congrArg List.reverse this
        simpa using this.symm
      have := Nat.ofDigits_digits 10 m
      rw [hd] at this
      simp [Nat.ofDigits] at this
      omega
  · rcases Nat.eq_zero_or_pos m with hm | hm
    · exfalso
      subst hm
      rw [hz n hn] at h
      have h0 : digitsOf 0 = ['0'] := rfl
      rw [h0] at h
      have : (Nat.digits 10 n).reverse = [0] :=
        map_digitChar_inj _ [0] (hdig n) (by simp) (by simpa using h)
      have hd : Nat.digits 10 n = [0] := by
        have := congrArg List.reverse this
        simpa using this
      have := Nat.ofDigits_digits 10 n
      rw [hd] at this
      simp [Nat.ofDigits] at this
      omega
    · rw [hz n hn, hz m hm] at h
      have hrev : (Nat.digits 10 n).reverse = (Nat.digits 10 m).reverse :=
        map_digitChar_inj _ _ (hdig n) (hdig m) h
      have hd : Nat.digits 10 n = Nat.digits 10 m := by
        have := congrArg List.reverse hrev
        simpa using this
      calc n = Nat.ofDigits 10 (Nat.digits 10 n) :=
            (Nat.ofDigits_digits 10 n).symm
        _ = Nat.ofDigits 10 (Nat.digits 10 m) := by rw [hd]
        _ = m := Nat.ofDigits_digits 10 m

/-- Splitting at an underscore separator whose right parts contain no
underscore is unambiguous. -/
theorem append_underscore_inj :
    ∀ (l1 l2 m1 m2 : List Char), l1 ++ '_' :: m1 = l2 ++ '_' :: m2 →
      '_' ∉ m1 → '_' ∉ m2 → l1 = l2 ∧ m1 = m2 := by
  intro l1
  induction l1 with
  | nil =>
    intro l2 m1 m2 h h1 h2
    cases l2 with
    | nil => simpa using h
    | cons c u =>
      simp only [List.nil_append, List.cons_append, List.cons.injEq] at h
      exfalso
      apply h1
      rw [h.2]
      exact List.mem_append_right _ (by simp)
  | cons c t ih =>
    intro l2 m1 m2 h h1 h2
    cases l2 with
    | nil =>
      simp only [List.nil_append, List.cons_append, List.cons.injEq] at h
      exfalso
      apply h2
      rw [← h.2]
      exact List.mem_append_right _ (by simp)
    | cons d u =>
      simp only [List.cons_append, List.cons.injEq] at h
      rcases ih u m1 m2 h.2 h1 h2 with ⟨he, hm⟩
      exact ⟨by rw [h.1, he], hm⟩

/-- The character data of a string concatenation is list concatenation. -/
theorem string_data_append (s t : String) :
    (s ++ t).data = s.data ++ t.data := rfl

/-- Equal unique names force equal per-scene ids. -/
theorem entityUniqueName_id_inj (n1 n2 : String) (i1 i2 : Nat)
    (h : entityUniqueName n1 i1 = entityUniqueName n2 i2) : i1 = i2 := by
  have hdata : n1.data ++ '_' :: digitsOf i1 = n2.data ++ '_' :: digitsOf i2 := by
    have hd := congrArg String.data h
    simpa [entityUniqueName, decRepr, string_data_append] using hd
  have := append_underscore_inj n1.data n2.data (digitsOf i1) (digitsOf i2)
    hdata (decReprAux_no_underscore _ _) (decReprAux_no_underscore _ _)
  exact digitsOf_inj i1 i2 this.2

/-- C9: unique-name derivation is deterministic (a pure function of the
declared name and per-scene id) and injective within one live scene: if the
relevant per-scene ids (articulation root link ids and standalone entity ids)
are pairwise distinct, then any two distinct enumerated objects get distinct
unique names. -/
theorem convert_object_name_injective (s : SimScene)
    (hids : ∀ o1 ∈ sceneObjs s, ∀ o2 ∈ sceneObjs s,
      o1 ≠ o2 → objSceneId o1 ≠ objSceneId o2) :
    ∀ o1 ∈ sceneObjs s, ∀ o2 ∈ sceneObjs s, o1 ≠ o2 →
      convert_object_name o1 ≠ convert_object_name o2 := by
  intro o1 h1 o2 h2 hne heq
  apply hids o1 h1 o2 h2 hne
  have hname : ∀ o : SimObj,
      convert_object_name o = entityUniqueName (objDeclaredName o) (objSceneId o) := by
    intro o
    cases o <;> rfl
  rw [hname o1, hname o2] at heq
  exact entityUniqueName_id_inj _ _ _ _ heq

/-- Witness for C9 on the concrete three-object scene (distinct ids 5, 1, 2;
one actor shares the articulation's declared name): all three unique names
differ. -/
theorem convert_object_name_injective_witness :
    convert_object_name (.art ⟨"r", 5, Pose3.id, []⟩) ≠
      convert_object_name (.ent ⟨"r", 1, Pose3.id, []⟩) ∧
    convert_object_name (.art ⟨"r", 5, Pose3.id, []⟩) ≠
      convert_object_name (.ent ⟨"b", 2, Pose3.id, []⟩) ∧
    convert_object_name (.ent ⟨"r", 1, Pose3.id, []⟩) ≠
      convert_object_name (.ent ⟨"b", 2, Pose3.id, []⟩) := by
  have h := convert_object_name_injective ceScene9 (by decide)
  refine ⟨?_, ?_, ?_⟩ <;>
    exact h _ (by simp [sceneObjs, ceScene9]) _ (by simp [sceneObjs, ceScene9])
      (by decide)

/-- Witness for C4: synchronizing against an empty world raises the
out-of-sync error, and synchronizing the registered fixture world refreshes
the articulation's base pose and joint positions. -/
theorem sync_articulation_refresh_witness :
    (∃ a ∈ ceScene.articulations,
        assocFind (⟨[], [], []⟩ : PlanningWorld).articulations
          (convert_object_name (.art a)) = none ∧
        update_from_simulation ⟨[], [], []⟩ ceScene true =
          .error (outOfSyncMsg a.name)) ∧
    (∃ pw' warns, update_from_simulation cePWArt ceScene true = .ok (pw', warns) ∧
      ∀ a ∈ ceScene.articulations, ∃ m,
        assocFind pw'.articulations (convert_object_name (.art a)) = some m ∧
        m.base_pose = a.root_pose ∧ m.qpos = a.qpos) :=
  ⟨(sync_articulation_refresh ⟨[], [], []⟩ ceScene true).1
      ⟨ceArt, by simp [ceScene], rfl⟩,
   (sync_articulation_refresh cePWArt ceScene true).2 (by decide) (by decide)⟩

/-- Witness for C5: a concrete unknown shape-carrying entity yields only the
warning with the world unchanged, and a successful concrete synchronization
leaves all three name sets unchanged. -/
theorem sync_never_adds_witness :
    (processActor true cePW ⟨"ghost", 9, Pose3.id, [exampleShapeSphere]⟩ =
      (cePW, [warnMsg "ghost"])) ∧
    (keys cePW.articulations = keys cePW.articulations ∧
     keys cePW.objects = keys cePW.objects ∧
     keys cePW.attached = keys cePW.attached) :=
  ⟨(sync_never_adds true cePW ⟨"ghost", 9, Pose3.id, [exampleShapeSphere]⟩
      ⟨[], [ceEnt1]⟩).1 rfl rfl (by simp),
   (sync_never_adds true cePW ⟨"ghost", 9, Pose3.id, [exampleShapeSphere]⟩
      ⟨[], [ceEnt1]⟩).2 cePW [] rfl⟩

end MPlib
